import Mathlib

/-!
# Basic sine wave generation over UHD: embedding of `code.cpp`

The program is one function, `main`.  It talks to a radio through the UHD
library, so the embedding is parametric in

* a `Device`: what every UHD call answers (a new device state and a result, or
  a thrown exception), and
* the scalar types `α` (C++ `double`) and `β` (C++ `float`) together with the
  `<cmath>` operations `M_PI`, `cos`, `sin` and the `double → float` narrowing.

`main` is written in a small state-and-exception monad whose state holds the
device state and the ordered list of calls issued so far.  An exception thrown
by a UHD call is not caught anywhere in `main`, so it ends the run.
-/

namespace SineTx

/-! ## Data model -/

/-- The two fields of `uhd::tx_metadata_t` that `main` reads and writes. -/
structure tx_metadata_t where
  start_of_burst : Bool
  end_of_burst : Bool
  deriving DecidableEq, Repr

/-- The arguments of one `tx_stream->send(buff, nsamps_per_buff, md)` call.
A `std::complex<float>` is the pair (real part, imaginary part). -/
structure Submission (β : Type) where
  buff : List (β × β)
  nsamps_per_buff : Nat
  md : tx_metadata_t
  deriving DecidableEq, Repr

/-- What `main` does that is visible from outside, in program order: the UHD
calls it issues and the lines it writes to `std::cout`. -/
inductive Event (α β : Type) where
  | make
  | set_tx_rate (rate : α)
  | set_tx_freq (freq : α)
  | set_tx_gain (gain : α)
  | get_tx_rate
  | get_tx_freq
  | get_tx_gain
  | get_tx_stream (cpu_format : String)
  | send (sub : Submission β)
  | cout_value (label : String) (value : α)
  | cout_line (text : String)
  deriving DecidableEq, Repr

/-- The radio behind the UHD calls.  `σ` is the state of the device (stream
handle included).  Every call may throw (`Except.error`, with the diagnostic)
or return a result and the next device state. -/
structure Device (σ α β : Type) where
  make : Except String σ
  set_tx_rate : α → σ → Except String (Unit × σ)
  set_tx_freq : α → σ → Except String (Unit × σ)
  set_tx_gain : α → σ → Except String (Unit × σ)
  get_tx_rate : σ → Except String (α × σ)
  get_tx_freq : σ → Except String (α × σ)
  get_tx_gain : σ → Except String (α × σ)
  get_tx_stream : String → σ → Except String (Unit × σ)
  send : Submission β → σ → Except String (Nat × σ)

/-- The `<cmath>` side of the program: `M_PI`, `cos`, `sin` on `double` (`α`)
and the conversion `double → float` done by the `std::complex<float>`
constructor. -/
structure FloatOps (α β : Type) where
  pi : α
  cos : α → α
  sin : α → α
  narrow : α → β

/-- The constants that `main` fixes in its text. -/
structure Config (α : Type) where
  tx_rate : α
  tx_freq : α
  tx_gain : α
  tone_freq : α
  buffer_size : Nat
  iterations : Nat

/-- The values written in `code.cpp`: 200 kS/s, 100 MHz, 40 dB, a 10 kHz tone,
1024 samples a buffer, 2000 iterations. -/
def reference_config (α : Type) [NatCast α] : Config α where
  tx_rate := ((200000 : Nat) : α)
  tx_freq := ((100000000 : Nat) : α)
  tx_gain := ((40 : Nat) : α)
  tone_freq := ((10000 : Nat) : α)
  buffer_size := 1024
  iterations := 2000

/-- The worked scenario of the specification: the reference values with a
buffer of 4 samples. -/
def scenario_config (α : Type) [NatCast α] : Config α :=
  { reference_config α with buffer_size := 4 }

/-! ## The monad of `main` -/

/-- Device state and the events so far, oldest first. -/
structure World (σ α β : Type) where
  usrp : σ
  trace : List (Event α β)

/-- A computation that may throw; the world it leaves is kept either way. -/
def Prog (W R : Type) : Type := W → Except String R × W

/-- Sequencing: a throw skips everything after it. -/
def Prog.bind {W R Q : Type} (m : Prog W R) (f : R → Prog W Q) : Prog W Q :=
  fun w =>
    match m w with
    | (Except.ok x, w') => f x w'
    | (Except.error e, w') => (Except.error e, w')

instance {W : Type} : Monad (Prog W) where
  pure x := fun w => (Except.ok x, w)
  bind := Prog.bind

/-- Issue one UHD call: the event is recorded, then the device answers. -/
def call {σ α β R : Type} (ev : Event α β) (f : σ → Except String (R × σ)) :
    Prog (World σ α β) R :=
  fun w =>
    match f w.usrp with
    | Except.ok (r, s) => (Except.ok r, ⟨s, w.trace ++ [ev]⟩)
    | Except.error e => (Except.error e, ⟨w.usrp, w.trace ++ [ev]⟩)

/-- Write one line to `std::cout`. -/
def cout {σ α β : Type} (ev : Event α β) : Prog (World σ α β) Unit :=
  fun w => (Except.ok (), ⟨w.usrp, w.trace ++ [ev]⟩)

/-! ## The program -/

/-- The local variables that live across iterations of the transmit loop. -/
structure LoopVars (α β : Type) where
  buffer : List (β × β)
  phase : α
  md : tx_metadata_t

section Program

variable {σ α β : Type}

/-- Body of the inner loop at index `i`:
`buffer[i] = std::complex<float>(cos(phase), sin(phase)); phase += phase_inc;` -/
def fill_step [Add α] (M : FloatOps α β) (phase_inc : α)
    (st : List (β × β) × α) (i : Nat) : List (β × β) × α :=
  (st.1.set i (M.narrow (M.cos st.2), M.narrow (M.sin st.2)), st.2 + phase_inc)

/-- The inner loop `for (size_t i = 0; i < bound; i++)`, from the buffer and
phase it starts with to the buffer and phase it leaves. -/
def fill_buffer [Add α] (M : FloatOps α β) (phase_inc : α) (bound : Nat)
    (st : List (β × β) × α) : List (β × β) × α :=
  (List.range bound).foldl (fill_step M phase_inc) st

/-- The transmit loop `for (int n = 0; n < count; n++)`: fill the buffer, send
it with the current metadata, clear `start_of_burst`. -/
def tx_loop [Add α] (d : Device σ α β) (M : FloatOps α β) (phase_inc : α)
    (buffer_size : Nat) :
    Nat → LoopVars α β → Prog (World σ α β) (LoopVars α β)
  | 0, v => pure v
  | count + 1, v => do
      let filled := fill_buffer M phase_inc buffer_size (v.buffer, v.phase)
      let sub : Submission β := ⟨filled.1, filled.1.length, v.md⟩
      let _ ← call (Event.send sub) (d.send sub)
      tx_loop d M phase_inc buffer_size count
        ⟨filled.1, filled.2, { v.md with start_of_burst := false }⟩

/-- The statement `double phase_inc = 2 * M_PI * tone_freq / tx_rate;`, where
`tx_rate` is the local variable holding the requested rate. -/
def phase_inc [OfNat α 2] [Mul α] [Div α] (M : FloatOps α β) (c : Config α) : α :=
  2 * M.pi * c.tone_freq / c.tx_rate

/-- The sections BASIC SETTINGS and STREAM SETUP of `main`: the three setters,
the three read-backs with the lines that report them, and the opening of the
transmit stream. -/
def configure (d : Device σ α β) (c : Config α) : Prog (World σ α β) Unit := do
  call (Event.set_tx_rate c.tx_rate) (d.set_tx_rate c.tx_rate)
  call (Event.set_tx_freq c.tx_freq) (d.set_tx_freq c.tx_freq)
  call (Event.set_tx_gain c.tx_gain) (d.set_tx_gain c.tx_gain)
  let rate ← call Event.get_tx_rate d.get_tx_rate
  cout (Event.cout_value "TX Rate: " rate)
  let freq ← call Event.get_tx_freq d.get_tx_freq
  cout (Event.cout_value "TX Freq: " freq)
  let gain ← call Event.get_tx_gain d.get_tx_gain
  cout (Event.cout_value "TX Gain: " gain)
  call (Event.get_tx_stream "fc32") (d.get_tx_stream "fc32")

/-- The sections METADATA, TONE GENERATION, TRANSMIT LOOP and END BURST of
`main`, up to its `return 0`. -/
def transmit [Zero α] [OfNat α 2] [Add α] [Mul α] [Div α] [Zero β]
    (d : Device σ α β) (M : FloatOps α β) (c : Config α) :
    Prog (World σ α β) Int := do
  -- metadata
  let md : tx_metadata_t := ⟨true, false⟩
  -- tone generation
  let buffer : List (β × β) := List.replicate c.buffer_size (0, 0)
  let phase : α := 0
  -- transmit loop
  let v ← tx_loop d M (phase_inc M c) c.buffer_size c.iterations ⟨buffer, phase, md⟩
  -- end burst
  let md := { v.md with end_of_burst := true }
  let last : Submission β := ⟨[], 0, md⟩
  let _ ← call (Event.send last) (d.send last)
  cout (Event.cout_line "Transmission done")
  return 0

/-- Everything in `main` after the device handle has been obtained. -/
def main_body [Zero α] [OfNat α 2] [Add α] [Mul α] [Div α] [Zero β]
    (d : Device σ α β) (M : FloatOps α β) (c : Config α) :
    Prog (World σ α β) Int := do
  configure d c
  transmit d M c

/-- How a run of the process ends: the events in order, and either the value
`main` returns or the exception that left `main` uncaught (which terminates
the process abnormally, with a non-zero status). -/
structure Run (α β : Type) where
  trace : List (Event α β)
  result : Except String Int

/-- The function `main` of `code.cpp`. -/
def main [Zero α] [OfNat α 2] [Add α] [Mul α] [Div α] [Zero β]
    (d : Device σ α β) (M : FloatOps α β) (c : Config α) : Run α β :=
  match d.make with
  | Except.error e => ⟨[Event.make], Except.error e⟩
  | Except.ok usrp =>
      let out := main_body d M c ⟨usrp, [Event.make]⟩
      ⟨out.2.trace, out.1⟩

end Program

/-- The send submissions among a list of events, in order. -/
def submissions {α β : Type} : List (Event α β) → List (Submission β)
  | [] => []
  | Event.send sub :: rest => sub :: submissions rest
  | _ :: rest => submissions rest

/-! ## Model devices

Concrete radios used to run `main` on explicit inputs. -/

/-- What a model radio remembers: the three transmit settings. -/
structure Settings (α : Type) where
  rate : α
  freq : α
  gain : α
  deriving DecidableEq, Repr

/-- A radio that honours every request exactly and accepts every sample. -/
def ideal_device (α β : Type) [Zero α] : Device (Settings α) α β where
  make := Except.ok ⟨0, 0, 0⟩
  set_tx_rate v s := Except.ok ((), { s with rate := v })
  set_tx_freq v s := Except.ok ((), { s with freq := v })
  set_tx_gain v s := Except.ok ((), { s with gain := v })
  get_tx_rate s := Except.ok (s.rate, s)
  get_tx_freq s := Except.ok (s.freq, s)
  get_tx_gain s := Except.ok (s.gain, s)
  get_tx_stream _ s := Except.ok ((), s)
  send sub s := Except.ok (sub.nsamps_per_buff, s)

/-- A radio whose sample rate cannot exceed `cap`: `set_tx_rate` clamps the
request, and `get_tx_rate` reads back the clamped value. -/
def clamping_device (α β : Type) [Zero α] [Min α] (cap : α) :
    Device (Settings α) α β where
  make := Except.ok ⟨0, 0, 0⟩
  set_tx_rate v s := Except.ok ((), { s with rate := min v cap })
  set_tx_freq v s := Except.ok ((), { s with freq := v })
  set_tx_gain v s := Except.ok ((), { s with gain := v })
  get_tx_rate s := Except.ok (s.rate, s)
  get_tx_freq s := Except.ok (s.freq, s)
  get_tx_gain s := Except.ok (s.gain, s)
  get_tx_stream _ s := Except.ok ((), s)
  send sub s := Except.ok (sub.nsamps_per_buff, s)

/-- A radio whose `send` never fails but always reports a short transfer:
half of the samples it was given. -/
def short_device (α β : Type) [Zero α] : Device (Settings α) α β where
  make := Except.ok ⟨0, 0, 0⟩
  set_tx_rate v s := Except.ok ((), { s with rate := v })
  set_tx_freq v s := Except.ok ((), { s with freq := v })
  set_tx_gain v s := Except.ok ((), { s with gain := v })
  get_tx_rate s := Except.ok (s.rate, s)
  get_tx_freq s := Except.ok (s.freq, s)
  get_tx_gain s := Except.ok (s.gain, s)
  get_tx_stream _ s := Except.ok ((), s)
  send sub s := Except.ok (sub.nsamps_per_buff / 2, s)

/-- No radio is attached: `multi_usrp::make` throws, and so would every other
call. -/
def absent_device (α β : Type) : Device Unit α β where
  make := Except.error "LookupError: KeyError: No devices found"
  set_tx_rate _ _ := Except.error "no device"
  set_tx_freq _ _ := Except.error "no device"
  set_tx_gain _ _ := Except.error "no device"
  get_tx_rate _ := Except.error "no device"
  get_tx_freq _ := Except.error "no device"
  get_tx_gain _ := Except.error "no device"
  get_tx_stream _ _ := Except.error "no device"
  send _ _ := Except.error "no device"

/-- A device is non-failing when none of its calls throws, in any state and
for any argument. -/
structure Device.NonFailing {σ α β : Type} (d : Device σ α β) : Prop where
  make : ∃ s, d.make = Except.ok s
  set_tx_rate : ∀ v s, ∃ r, d.set_tx_rate v s = Except.ok r
  set_tx_freq : ∀ v s, ∃ r, d.set_tx_freq v s = Except.ok r
  set_tx_gain : ∀ v s, ∃ r, d.set_tx_gain v s = Except.ok r
  get_tx_rate : ∀ s, ∃ r, d.get_tx_rate s = Except.ok r
  get_tx_freq : ∀ s, ∃ r, d.get_tx_freq s = Except.ok r
  get_tx_gain : ∀ s, ∃ r, d.get_tx_gain s = Except.ok r
  get_tx_stream : ∀ a s, ∃ r, d.get_tx_stream a s = Except.ok r
  send : ∀ sub s, ∃ r, d.send sub s = Except.ok r

/-! ## The loop without the radio

What the local variables and the submissions of the transmit loop are when no
`send` throws.  `tx_loop_ok` below ties them to `tx_loop`. -/

section PureLoop

variable {α β : Type}

/-- The local variables after one more iteration of the transmit loop. -/
def next_vars [Add α] (M : FloatOps α β) (phase_inc : α) (buffer_size : Nat)
    (v : LoopVars α β) : LoopVars α β :=
  ⟨(fill_buffer M phase_inc buffer_size (v.buffer, v.phase)).1,
   (fill_buffer M phase_inc buffer_size (v.buffer, v.phase)).2,
   { v.md with start_of_burst := false }⟩

/-- The local variables after `count` iterations started from `v`. -/
def loop_vars [Add α] (M : FloatOps α β) (phase_inc : α) (buffer_size : Nat) :
    Nat → LoopVars α β → LoopVars α β
  | 0, v => v
  | count + 1, v => loop_vars M phase_inc buffer_size count (next_vars M phase_inc buffer_size v)

/-- The submissions of `count` iterations started from `v`. -/
def loop_sends [Add α] (M : FloatOps α β) (phase_inc : α) (buffer_size : Nat) :
    Nat → LoopVars α β → List (Submission β)
  | 0, _ => []
  | count + 1, v =>
      ⟨(next_vars M phase_inc buffer_size v).buffer,
       (next_vars M phase_inc buffer_size v).buffer.length, v.md⟩ ::
        loop_sends M phase_inc buffer_size count (next_vars M phase_inc buffer_size v)

/-- The local variables of `main` on entry to the transmit loop. -/
def initial_vars [Zero α] [Zero β] (c : Config α) : LoopVars α β :=
  ⟨List.replicate c.buffer_size (0, 0), 0, ⟨true, false⟩⟩

/-- Every submission of a run of `main` in which no call throws: those of the
transmit loop, then the end-of-burst one. -/
def planned_sends [Zero α] [OfNat α 2] [Add α] [Mul α] [Div α] [Zero β]
    (M : FloatOps α β) (c : Config α) : List (Submission β) :=
  loop_sends M (phase_inc M c) c.buffer_size c.iterations (initial_vars c) ++
    [⟨[], 0, { (loop_vars M (phase_inc M c) c.buffer_size c.iterations
      (initial_vars c)).md with end_of_burst := true }⟩]

/-- The events of `main` from the first setter up to and including the
opening of the stream, given the three values the getters returned. -/
def config_events (c : Config α) (rate freq gain : α) : List (Event α β) :=
  [Event.set_tx_rate c.tx_rate, Event.set_tx_freq c.tx_freq,
   Event.set_tx_gain c.tx_gain, Event.get_tx_rate, Event.cout_value "TX Rate: " rate,
   Event.get_tx_freq, Event.cout_value "TX Freq: " freq,
   Event.get_tx_gain, Event.cout_value "TX Gain: " gain,
   Event.get_tx_stream "fc32"]

end PureLoop

/-- Arithmetic without rounding: `double` and `float` are the same type and
the narrowing conversion changes nothing. -/
def exact_ops {α : Type} (pi : α) (cos sin : α → α) : FloatOps α α :=
  ⟨pi, cos, sin, id⟩

/-- The value of the variable `phase` when the inner loop of iteration `k` of
the transmit loop reaches slot `i`: it is the phase whose cosine and sine are
stored in that slot. -/
def slot_phase {α β : Type} [Zero α] [OfNat α 2] [Add α] [Mul α] [Div α] [Zero β]
    (M : FloatOps α β) (c : Config α) (k i : Nat) : α :=
  (fill_buffer M (phase_inc M c) i
    ((loop_vars M (phase_inc M c) c.buffer_size k (initial_vars c)).buffer,
     (loop_vars M (phase_inc M c) c.buffer_size k (initial_vars c)).phase)).2

/-- A computation is silent when it adds no submission to the trace. -/
def Silent {σ α β R : Type} (m : Prog (World σ α β) R) : Prop :=
  ∀ w, submissions (m w).2.trace = submissions w.trace

/-! ## Running the monad -/

section Run

variable {σ α β : Type}

theorem Prog.bind_ok {W R Q : Type} (m : Prog W R) (f : R → Prog W Q) (w w' : W) (x : R)
    (h : m w = (Except.ok x, w')) : (m >>= f) w = f x w' := by
  show Prog.bind m f w = f x w'
  simp [Prog.bind, h]

theorem Prog.bind_error {W R Q : Type} (m : Prog W R) (f : R → Prog W Q) (w w' : W)
    (e : String) (h : m w = (Except.error e, w')) :
    (m >>= f) w = (Except.error e, w') := by
  show Prog.bind m f w = (Except.error e, w')
  simp [Prog.bind, h]

theorem Prog.pure_apply {W R : Type} (x : R) (w : W) :
    (pure x : Prog W R) w = (Except.ok x, w) := rfl

theorem call_ok {R : Type} (ev : Event α β) (f : σ → Except String (R × σ))
    (w : World σ α β) (r : R × σ) (h : f w.usrp = Except.ok r) :
    call ev f w = (Except.ok r.1, ⟨r.2, w.trace ++ [ev]⟩) := by
  simp [call, h]

theorem call_error {R : Type} (ev : Event α β) (f : σ → Except String (R × σ))
    (w : World σ α β) (e : String) (h : f w.usrp = Except.error e) :
    call ev f w = (Except.error e, ⟨w.usrp, w.trace ++ [ev]⟩) := by
  simp [call, h]

theorem cout_apply (ev : Event α β) (w : World σ α β) :
    cout ev w = (Except.ok (), ⟨w.usrp, w.trace ++ [ev]⟩) := rfl

theorem submissions_append (xs ys : List (Event α β)) :
    submissions (xs ++ ys) = submissions xs ++ submissions ys := by
  induction xs with
  | nil => rfl
  | cons x xs ih => cases x <;> simp [submissions, ih]

theorem submissions_map_send (l : List (Submission β)) :
    submissions (l.map (Event.send : Submission β → Event α β)) = l := by
  induction l with
  | nil => rfl
  | cons x xs ih => simp [submissions, ih]

theorem submissions_tail (evs : List (Submission β)) (tail : List (Event α β))
    (ht : tail = [] ∨ tail = [Event.cout_line "Transmission done"]) :
    submissions (evs.map Event.send ++ tail) = evs := by
  rcases ht with rfl | rfl <;>
    simp [submissions, submissions_append, submissions_map_send]

/-! ### The configuration phase -/

/-- When its seven calls return, `configure` has issued exactly the
configuration events, reporting the values the getters returned. -/
theorem configure_ok (d : Device σ α β) (c : Config α) (w : World σ α β)
    (r1 r2 r3 r4 : Unit × σ) (g1 g2 g3 : α × σ)
    (h1 : d.set_tx_rate c.tx_rate w.usrp = Except.ok r1)
    (h2 : d.set_tx_freq c.tx_freq r1.2 = Except.ok r2)
    (h3 : d.set_tx_gain c.tx_gain r2.2 = Except.ok r3)
    (h4 : d.get_tx_rate r3.2 = Except.ok g1)
    (h5 : d.get_tx_freq g1.2 = Except.ok g2)
    (h6 : d.get_tx_gain g2.2 = Except.ok g3)
    (h7 : d.get_tx_stream "fc32" g3.2 = Except.ok r4) :
    configure d c w =
      (Except.ok (), ⟨r4.2, w.trace ++ config_events c g1.1 g2.1 g3.1⟩) := by
  unfold configure
  refine (Prog.bind_ok _ _ _ _ _ (call_ok _ _ _ _ h1)).trans ?_
  refine (Prog.bind_ok _ _ _ _ _ (call_ok _ _ _ _ h2)).trans ?_
  refine (Prog.bind_ok _ _ _ _ _ (call_ok _ _ _ _ h3)).trans ?_
  refine (Prog.bind_ok _ _ _ _ _ (call_ok _ _ _ _ h4)).trans ?_
  refine (Prog.bind_ok _ _ _ _ _ (cout_apply _ _)).trans ?_
  refine (Prog.bind_ok _ _ _ _ _ (call_ok _ _ _ _ h5)).trans ?_
  refine (Prog.bind_ok _ _ _ _ _ (cout_apply _ _)).trans ?_
  refine (Prog.bind_ok _ _ _ _ _ (call_ok _ _ _ _ h6)).trans ?_
  refine (Prog.bind_ok _ _ _ _ _ (cout_apply _ _)).trans ?_
  refine (call_ok _ _ _ _ h7).trans ?_
  simp [config_events]

/-- When the setters and getters return but the stream cannot be opened,
`configure` throws after the same events. -/
theorem configure_stream_error (d : Device σ α β) (c : Config α) (w : World σ α β)
    (r1 r2 r3 : Unit × σ) (g1 g2 g3 : α × σ) (e : String)
    (h1 : d.set_tx_rate c.tx_rate w.usrp = Except.ok r1)
    (h2 : d.set_tx_freq c.tx_freq r1.2 = Except.ok r2)
    (h3 : d.set_tx_gain c.tx_gain r2.2 = Except.ok r3)
    (h4 : d.get_tx_rate r3.2 = Except.ok g1)
    (h5 : d.get_tx_freq g1.2 = Except.ok g2)
    (h6 : d.get_tx_gain g2.2 = Except.ok g3)
    (h7 : d.get_tx_stream "fc32" g3.2 = Except.error e) :
    configure d c w =
      (Except.error e, ⟨g3.2, w.trace ++ config_events c g1.1 g2.1 g3.1⟩) := by
  unfold configure
  refine (Prog.bind_ok _ _ _ _ _ (call_ok _ _ _ _ h1)).trans ?_
  refine (Prog.bind_ok _ _ _ _ _ (call_ok _ _ _ _ h2)).trans ?_
  refine (Prog.bind_ok _ _ _ _ _ (call_ok _ _ _ _ h3)).trans ?_
  refine (Prog.bind_ok _ _ _ _ _ (call_ok _ _ _ _ h4)).trans ?_
  refine (Prog.bind_ok _ _ _ _ _ (cout_apply _ _)).trans ?_
  refine (Prog.bind_ok _ _ _ _ _ (call_ok _ _ _ _ h5)).trans ?_
  refine (Prog.bind_ok _ _ _ _ _ (cout_apply _ _)).trans ?_
  refine (Prog.bind_ok _ _ _ _ _ (call_ok _ _ _ _ h6)).trans ?_
  refine (Prog.bind_ok _ _ _ _ _ (cout_apply _ _)).trans ?_
  refine (call_error _ _ _ _ h7).trans ?_
  simp [config_events]

theorem Silent.bind {R Q : Type} {m : Prog (World σ α β) R}
    {f : R → Prog (World σ α β) Q} (hm : Silent m) (hf : ∀ x, Silent (f x)) :
    Silent (m >>= f) := by
  intro w
  rcases hmw : m w with ⟨_ | x, w'⟩
  · rw [Prog.bind_error _ _ _ _ _ hmw]; simpa [hmw] using hm w
  · rw [Prog.bind_ok _ _ _ _ _ hmw, hf x w']; simpa [hmw] using hm w

theorem Silent.call {R : Type} (ev : Event α β) (f : σ → Except String (R × σ))
    (hev : submissions [ev] = []) : Silent (call ev f) := by
  intro w
  rcases hf : f w.usrp with e | r
  · simp [call_error _ _ _ _ hf, submissions_append, hev]
  · simp [call_ok _ _ _ _ hf, submissions_append, hev]

theorem Silent.cout (ev : Event α β) (hev : submissions [ev] = []) :
    Silent (cout ev : Prog (World σ α β) Unit) := by
  intro w
  simp [cout_apply, submissions_append, hev]

/-- Whatever the device answers, `configure` issues no `send`. -/
theorem configure_silent (d : Device σ α β) (c : Config α) : Silent (configure d c) := by
  unfold configure
  refine Silent.bind (Silent.call _ _ rfl) fun _ => ?_
  refine Silent.bind (Silent.call _ _ rfl) fun _ => ?_
  refine Silent.bind (Silent.call _ _ rfl) fun _ => ?_
  refine Silent.bind (Silent.call _ _ rfl) fun _ => ?_
  refine Silent.bind (Silent.cout _ rfl) fun _ => ?_
  refine Silent.bind (Silent.call _ _ rfl) fun _ => ?_
  refine Silent.bind (Silent.cout _ rfl) fun _ => ?_
  refine Silent.bind (Silent.call _ _ rfl) fun _ => ?_
  refine Silent.bind (Silent.cout _ rfl) fun _ => ?_
  exact Silent.call _ _ rfl

/-! ### The transmit phase -/

/-- When no `send` throws, the transmit loop runs all its iterations: it
leaves the variables `loop_vars` and has issued exactly `loop_sends`. -/
theorem tx_loop_ok [Add α] (d : Device σ α β) (M : FloatOps α β) (inc : α) (B : Nat)
    (hs : ∀ sub s, ∃ r, d.send sub s = Except.ok r) :
    ∀ (count : Nat) (v : LoopVars α β) (w : World σ α β),
      ∃ s, tx_loop d M inc B count v w =
        (Except.ok (loop_vars M inc B count v),
          ⟨s, w.trace ++ (loop_sends M inc B count v).map Event.send⟩)
  | 0, v, w => ⟨w.usrp, by simp [tx_loop, loop_vars, loop_sends, Prog.pure_apply]⟩
  | count + 1, v, w => by
      obtain ⟨r, hr⟩ := hs ⟨(next_vars M inc B v).buffer,
        (next_vars M inc B v).buffer.length, v.md⟩ w.usrp
      obtain ⟨s, h⟩ := tx_loop_ok d M inc B hs count (next_vars M inc B v)
        ⟨r.2, w.trace ++ [Event.send ⟨(next_vars M inc B v).buffer,
          (next_vars M inc B v).buffer.length, v.md⟩]⟩
      refine ⟨s, ?_⟩
      rw [tx_loop]
      refine (Prog.bind_ok _ _ w _ _ (call_ok _ _ w r hr)).trans ?_
      simpa [loop_vars, loop_sends, next_vars] using h

/-- Whatever `send` answers, the transmit loop issues only sends, and they
are the first ones of `loop_sends`; all of them when the loop completes. -/
theorem tx_loop_any [Add α] (d : Device σ α β) (M : FloatOps α β) (inc : α) (B : Nat) :
    ∀ (count : Nat) (v : LoopVars α β) (w : World σ α β),
      ∃ s evs, (tx_loop d M inc B count v w).2 = ⟨s, w.trace ++ evs.map Event.send⟩ ∧
        evs <+: loop_sends M inc B count v ∧
        ∀ v', (tx_loop d M inc B count v w).1 = Except.ok v' →
          v' = loop_vars M inc B count v ∧ evs = loop_sends M inc B count v
  | 0, v, w => ⟨w.usrp, [], by simp [tx_loop, loop_vars, loop_sends, Prog.pure_apply]⟩
  | count + 1, v, w => by
      rcases hr : d.send ⟨(next_vars M inc B v).buffer,
        (next_vars M inc B v).buffer.length, v.md⟩ w.usrp with e | r
      · have h : tx_loop d M inc B (count + 1) v w =
            (Except.error e, ⟨w.usrp, w.trace ++ [Event.send ⟨(next_vars M inc B v).buffer,
              (next_vars M inc B v).buffer.length, v.md⟩]⟩) := by
          rw [tx_loop]
          exact Prog.bind_error _ _ w _ _ (call_error _ _ w e hr)
        refine ⟨w.usrp, [⟨(next_vars M inc B v).buffer,
          (next_vars M inc B v).buffer.length, v.md⟩], ?_, ?_, ?_⟩
        · simp [h]
        · simp [loop_sends, List.cons_prefix_cons]
        · intro v' hv'; simp [h] at hv'
      · obtain ⟨s, evs, h2, hp, hv⟩ := tx_loop_any d M inc B count (next_vars M inc B v)
          ⟨r.2, w.trace ++ [Event.send ⟨(next_vars M inc B v).buffer,
            (next_vars M inc B v).buffer.length, v.md⟩]⟩
        have h : tx_loop d M inc B (count + 1) v w =
            tx_loop d M inc B count (next_vars M inc B v)
              ⟨r.2, w.trace ++ [Event.send ⟨(next_vars M inc B v).buffer,
                (next_vars M inc B v).buffer.length, v.md⟩]⟩ := by
          rw [tx_loop]
          exact Prog.bind_ok _ _ w _ _ (call_ok _ _ w r hr)
        refine ⟨s, ⟨(next_vars M inc B v).buffer,
          (next_vars M inc B v).buffer.length, v.md⟩ :: evs, ?_, ?_, ?_⟩
        · simp [h, h2]
        · simpa [loop_sends, List.cons_prefix_cons] using hp
        · intro v' hv'
          rw [h] at hv'
          obtain ⟨e1, e2⟩ := hv v' hv'
          simp [loop_vars, loop_sends, e1, e2]

variable [Zero α] [OfNat α 2] [Add α] [Mul α] [Div α] [Zero β]

/-- When no `send` throws, `transmit` issues the planned submissions, writes
the closing line and returns 0. -/
theorem transmit_ok (d : Device σ α β) (M : FloatOps α β) (c : Config α)
    (w : World σ α β) (hs : ∀ sub s, ∃ r, d.send sub s = Except.ok r) :
    ∃ s, transmit d M c w =
      (Except.ok 0, ⟨s, w.trace ++ ((planned_sends M c).map Event.send ++
        [Event.cout_line "Transmission done"])⟩) := by
  obtain ⟨s8, h8⟩ := tx_loop_ok d M (phase_inc M c) c.buffer_size hs c.iterations
    (initial_vars c) w
  obtain ⟨r9, h9⟩ := hs ⟨[], 0, { (loop_vars M (phase_inc M c) c.buffer_size
    c.iterations (initial_vars c)).md with end_of_burst := true }⟩ s8
  refine ⟨r9.2, ?_⟩
  unfold transmit
  refine (Prog.bind_ok _ _ _ _ _ h8).trans ?_
  refine (Prog.bind_ok _ _ _ _ _ (call_ok _ _ _ _ h9)).trans ?_
  refine (Prog.bind_ok _ _ _ _ _ (cout_apply _ _)).trans ?_
  simp [Prog.pure_apply, planned_sends]

/-- Whatever `send` answers, `transmit` issues only sends, the first ones of
the planned list, possibly followed by the closing line; when it returns, it
has issued all of them. -/
theorem transmit_any (d : Device σ α β) (M : FloatOps α β) (c : Config α)
    (w : World σ α β) :
    ∃ s evs tail, (transmit d M c w).2 = ⟨s, w.trace ++ (evs.map Event.send ++ tail)⟩ ∧
      evs <+: planned_sends M c ∧
      (tail = [] ∨ tail = [Event.cout_line "Transmission done"]) ∧
      ∀ v, (transmit d M c w).1 = Except.ok v → v = 0 ∧ evs = planned_sends M c := by
  obtain ⟨s8, evs, h8, hp, hv⟩ := tx_loop_any d M (phase_inc M c) c.buffer_size
    c.iterations (initial_vars c) w
  rcases hl : tx_loop d M (phase_inc M c) c.buffer_size c.iterations (initial_vars c) w
    with ⟨e | v', w8⟩
  · have h : transmit d M c w = (Except.error e, w8) := by
      unfold transmit
      exact Prog.bind_error _ _ _ _ _ hl
    refine ⟨s8, evs, [], ?_, ?_, Or.inl rfl, ?_⟩
    · rw [h]; simpa [hl] using h8
    · exact hp.trans (List.prefix_append _ _)
    · intro v hv2; simp [h] at hv2
  · obtain ⟨e1, e2⟩ := hv v' (by rw [hl])
    have hw8 : w8 = ⟨s8, w.trace ++ evs.map Event.send⟩ := by simpa [hl] using h8
    subst e1 e2 hw8
    rcases h9 : d.send ⟨[], 0, { (loop_vars M (phase_inc M c) c.buffer_size
      c.iterations (initial_vars c)).md with end_of_burst := true }⟩ s8 with e | r9
    · have h : transmit d M c w = (Except.error e, ⟨s8, w.trace ++
          (loop_sends M (phase_inc M c) c.buffer_size c.iterations
            (initial_vars c)).map Event.send ++ [Event.send ⟨[], 0,
              { (loop_vars M (phase_inc M c) c.buffer_size c.iterations
                (initial_vars c)).md with end_of_burst := true }⟩]⟩) := by
        unfold transmit
        refine (Prog.bind_ok _ _ _ _ _ hl).trans ?_
        exact Prog.bind_error _ _ _ _ _ (call_error _ _ _ _ h9)
      refine ⟨s8, planned_sends M c, [], ?_, List.prefix_refl _, Or.inl rfl, ?_⟩
      · rw [h]; simp [planned_sends]
      · intro v hv2; simp [h] at hv2
    · have h : transmit d M c w = (Except.ok 0, ⟨r9.2, w.trace ++
          (loop_sends M (phase_inc M c) c.buffer_size c.iterations
            (initial_vars c)).map Event.send ++ [Event.send ⟨[], 0,
              { (loop_vars M (phase_inc M c) c.buffer_size c.iterations
                (initial_vars c)).md with end_of_burst := true }⟩] ++
            [Event.cout_line "Transmission done"]⟩) := by
        unfold transmit
        refine (Prog.bind_ok _ _ _ _ _ hl).trans ?_
        refine (Prog.bind_ok _ _ _ _ _ (call_ok _ _ _ _ h9)).trans ?_
        refine (Prog.bind_ok _ _ _ _ _ (cout_apply _ _)).trans ?_
        rfl
      refine ⟨r9.2, planned_sends M c, [Event.cout_line "Transmission done"], ?_,
        List.prefix_refl _, Or.inr rfl, ?_⟩
      · rw [h]; simp [planned_sends]
      · intro v hv2
        rw [h] at hv2
        simp only [Except.ok.injEq] at hv2
        exact ⟨hv2.symm, rfl⟩

/-! ### The whole program -/

theorem main_make_error (d : Device σ α β) (M : FloatOps α β) (c : Config α) (e : String)
    (h0 : d.make = Except.error e) :
    main d M c = ⟨[Event.make], Except.error e⟩ := by
  simp [main, h0]

theorem main_make_ok (d : Device σ α β) (M : FloatOps α β) (c : Config α) (s0 : σ)
    (h0 : d.make = Except.ok s0) :
    main d M c = ⟨(main_body d M c ⟨s0, [Event.make]⟩).2.trace,
      (main_body d M c ⟨s0, [Event.make]⟩).1⟩ := by
  simp [main, h0]

/-- A run of `main` in which `make`, the seven configuration calls and every
`send` return: the whole run, event by event. -/
theorem main_run (d : Device σ α β) (M : FloatOps α β) (c : Config α) (s0 : σ)
    (r1 r2 r3 r4 : Unit × σ) (g1 g2 g3 : α × σ)
    (h0 : d.make = Except.ok s0)
    (h1 : d.set_tx_rate c.tx_rate s0 = Except.ok r1)
    (h2 : d.set_tx_freq c.tx_freq r1.2 = Except.ok r2)
    (h3 : d.set_tx_gain c.tx_gain r2.2 = Except.ok r3)
    (h4 : d.get_tx_rate r3.2 = Except.ok g1)
    (h5 : d.get_tx_freq g1.2 = Except.ok g2)
    (h6 : d.get_tx_gain g2.2 = Except.ok g3)
    (h7 : d.get_tx_stream "fc32" g3.2 = Except.ok r4)
    (hs : ∀ sub s, ∃ r, d.send sub s = Except.ok r) :
    main d M c =
      ⟨Event.make :: (config_events c g1.1 g2.1 g3.1 ++
        ((planned_sends M c).map Event.send ++ [Event.cout_line "Transmission done"])),
       Except.ok 0⟩ := by
  obtain ⟨s, h⟩ := transmit_ok d M c
    ⟨r4.2, [Event.make] ++ config_events c g1.1 g2.1 g3.1⟩ hs
  have hb : main_body d M c ⟨s0, [Event.make]⟩ = _ :=
    (Prog.bind_ok _ _ _ _ _
      (configure_ok d c ⟨s0, [Event.make]⟩ r1 r2 r3 r4 g1 g2 g3 h1 h2 h3 h4 h5 h6 h7)).trans h
  rw [main_make_ok d M c s0 h0, hb]
  simp

/-- On a non-failing device `main` returns 0, and its events are `make`, the
configuration events for some read-back values, the planned submissions and
the closing line. -/
theorem main_ok (d : Device σ α β) (M : FloatOps α β) (c : Config α) (h : d.NonFailing) :
    ∃ rate freq gain, main d M c =
      ⟨Event.make :: (config_events c rate freq gain ++
        ((planned_sends M c).map Event.send ++ [Event.cout_line "Transmission done"])),
       Except.ok 0⟩ := by
  obtain ⟨s0, h0⟩ := h.make
  obtain ⟨r1, h1⟩ := h.set_tx_rate c.tx_rate s0
  obtain ⟨r2, h2⟩ := h.set_tx_freq c.tx_freq r1.2
  obtain ⟨r3, h3⟩ := h.set_tx_gain c.tx_gain r2.2
  obtain ⟨g1, h4⟩ := h.get_tx_rate r3.2
  obtain ⟨g2, h5⟩ := h.get_tx_freq g1.2
  obtain ⟨g3, h6⟩ := h.get_tx_gain g2.2
  obtain ⟨r4, h7⟩ := h.get_tx_stream "fc32" g3.2
  exact ⟨g1.1, g2.1, g3.1, main_run d M c s0 r1 r2 r3 r4 g1 g2 g3 h0 h1 h2 h3 h4 h5 h6 h7 h.send⟩

/-- On a non-failing device the submissions of `main` are the planned ones. -/
theorem submissions_main (d : Device σ α β) (M : FloatOps α β) (c : Config α)
    (h : d.NonFailing) :
    submissions (main d M c).trace = planned_sends M c := by
  obtain ⟨rate, freq, gain, hm⟩ := main_ok d M c h
  rw [hm]
  simp [submissions, config_events, submissions_append, submissions_map_send]

/-- On any device, failing or not, the submissions that `main` issues are the
first ones of the planned list; they are all of it when `main` returns. -/
theorem submissions_any (d : Device σ α β) (M : FloatOps α β) (c : Config α) :
    submissions (main d M c).trace <+: planned_sends M c ∧
      ∀ v, (main d M c).result = Except.ok v →
        v = 0 ∧ submissions (main d M c).trace = planned_sends M c := by
  rcases h0 : d.make with e | s0
  · rw [main_make_error d M c e h0]
    simp [submissions]
  · rw [main_make_ok d M c s0 h0]
    have hsil := configure_silent d c ⟨s0, [Event.make]⟩
    rcases hc : configure d c ⟨s0, [Event.make]⟩ with ⟨e | u, w1⟩
    · have hb : main_body d M c ⟨s0, [Event.make]⟩ = (Except.error e, w1) :=
        Prog.bind_error _ _ _ _ _ hc
      rw [hc] at hsil
      simp only [submissions] at hsil
      simp [hb, hsil]
    · have hb : main_body d M c ⟨s0, [Event.make]⟩ = transmit d M c w1 :=
        Prog.bind_ok _ _ _ _ _ hc
      rw [hc] at hsil
      simp only [submissions] at hsil
      obtain ⟨s, evs, tail, ht, hp, htail, hv⟩ := transmit_any d M c w1
      rw [hb, ht]
      simp only [submissions_append, hsil, List.nil_append, submissions_tail evs tail htail]
      refine ⟨hp, fun v hv2 => ?_⟩
      obtain ⟨e1, e2⟩ := hv v hv2
      exact ⟨e1, e2⟩

/-- When `make`, the setters and the getters return, the run of `main` starts
with `make` and the configuration events reporting the getters' values, and
everything after them is a `send` or the closing line: whether or not the
stream opens and the sends succeed. -/
theorem main_after_config (d : Device σ α β) (M : FloatOps α β) (c : Config α) (s0 : σ)
    (r1 r2 r3 : Unit × σ) (g1 g2 g3 : α × σ)
    (h0 : d.make = Except.ok s0)
    (h1 : d.set_tx_rate c.tx_rate s0 = Except.ok r1)
    (h2 : d.set_tx_freq c.tx_freq r1.2 = Except.ok r2)
    (h3 : d.set_tx_gain c.tx_gain r2.2 = Except.ok r3)
    (h4 : d.get_tx_rate r3.2 = Except.ok g1)
    (h5 : d.get_tx_freq g1.2 = Except.ok g2)
    (h6 : d.get_tx_gain g2.2 = Except.ok g3) :
    ∃ rest, (main d M c).trace = Event.make :: (config_events c g1.1 g2.1 g3.1 ++ rest) ∧
      ∀ ev ∈ rest, (∃ sub, ev = Event.send sub) ∨
        ev = Event.cout_line "Transmission done" := by
  rw [main_make_ok d M c s0 h0]
  rcases h7 : d.get_tx_stream "fc32" g3.2 with e | r4
  · have hb : main_body d M c ⟨s0, [Event.make]⟩ = _ :=
      Prog.bind_error _ _ _ _ _
        (configure_stream_error d c ⟨s0, [Event.make]⟩ r1 r2 r3 g1 g2 g3 e
          h1 h2 h3 h4 h5 h6 h7)
    exact ⟨[], by simp [hb], by simp⟩
  · obtain ⟨s, evs, tail, ht, -, htail, -⟩ := transmit_any d M c
      ⟨r4.2, [Event.make] ++ config_events c g1.1 g2.1 g3.1⟩
    have hb : main_body d M c ⟨s0, [Event.make]⟩ = _ :=
      Prog.bind_ok _ _ _ _ _
        (configure_ok d c ⟨s0, [Event.make]⟩ r1 r2 r3 r4 g1 g2 g3 h1 h2 h3 h4 h5 h6 h7)
    have ht2 := congrArg World.trace ht
    simp only [List.singleton_append] at ht2 hb
    refine ⟨evs.map Event.send ++ tail, by rw [hb, ht2]; simp, ?_⟩
    intro ev hev
    rcases List.mem_append.mp hev with h | h
    · obtain ⟨sub, -, rfl⟩ := List.mem_map.mp h
      exact Or.inl ⟨sub, rfl⟩
    · rcases htail with rfl | rfl
      · simp at h
      · exact Or.inr (by simpa using h)

end Run

/-! ## Shape of the planned submissions -/

section Shape

variable {α β : Type}

theorem fill_buffer_succ [Add α] (M : FloatOps α β) (inc : α) (n : Nat)
    (st : List (β × β) × α) :
    fill_buffer M inc (n + 1) st = fill_step M inc (fill_buffer M inc n st) n := by
  simp [fill_buffer, List.range_succ, List.foldl_append]

theorem fill_buffer_length [Add α] (M : FloatOps α β) (inc : α) (n : Nat)
    (st : List (β × β) × α) :
    (fill_buffer M inc n st).1.length = st.1.length := by
  induction n with
  | zero => simp [fill_buffer]
  | succ n ih => rw [fill_buffer_succ]; simp [fill_step, ih]

theorem next_vars_length [Add α] (M : FloatOps α β) (inc : α) (B : Nat) (v : LoopVars α β) :
    (next_vars M inc B v).buffer.length = v.buffer.length := by
  simp [next_vars, fill_buffer_length]

theorem loop_vars_succ [Add α] (M : FloatOps α β) (inc : α) (B : Nat) :
    ∀ (k : Nat) (v : LoopVars α β),
      loop_vars M inc B (k + 1) v = next_vars M inc B (loop_vars M inc B k v)
  | 0, _ => rfl
  | k + 1, v => by
      rw [loop_vars, loop_vars_succ M inc B k (next_vars M inc B v)]
      rfl

theorem loop_vars_length [Add α] (M : FloatOps α β) (inc : α) (B : Nat) (k : Nat)
    (v : LoopVars α β) :
    (loop_vars M inc B k v).buffer.length = v.buffer.length := by
  induction k with
  | zero => rfl
  | succ k ih => rw [loop_vars_succ, next_vars_length, ih]

theorem loop_vars_md [Add α] (M : FloatOps α β) (inc : α) (B : Nat) (k : Nat)
    (v : LoopVars α β) :
    (loop_vars M inc B k v).md = ⟨v.md.start_of_burst && decide (k = 0), v.md.end_of_burst⟩ := by
  induction k with
  | zero => simp [loop_vars]
  | succ k ih => rw [loop_vars_succ]; simp [next_vars, ih]

theorem loop_sends_length [Add α] (M : FloatOps α β) (inc : α) (B : Nat) :
    ∀ (k : Nat) (v : LoopVars α β), (loop_sends M inc B k v).length = k
  | 0, _ => rfl
  | k + 1, v => by simp [loop_sends, loop_sends_length M inc B k]

/-- The `j`-th submission of the loop is built from the variables left by the
`j` iterations before it. -/
theorem loop_sends_get [Add α] (M : FloatOps α β) (inc : α) (B : Nat) :
    ∀ (k j : Nat) (v : LoopVars α β), j < k →
      (loop_sends M inc B k v)[j]? =
        some ⟨(next_vars M inc B (loop_vars M inc B j v)).buffer,
          (next_vars M inc B (loop_vars M inc B j v)).buffer.length,
          (loop_vars M inc B j v).md⟩
  | 0, _, _, h => absurd h (Nat.not_lt_zero _)
  | k + 1, 0, v, _ => by simp [loop_sends, loop_vars]
  | k + 1, j + 1, v, h => by
      simpa [loop_sends, loop_vars] using
        loop_sends_get M inc B k j (next_vars M inc B v) (Nat.lt_of_succ_lt_succ h)

variable [Zero α] [OfNat α 2] [Add α] [Mul α] [Div α] [Zero β]

theorem planned_sends_length (M : FloatOps α β) (c : Config α) :
    (planned_sends M c).length = c.iterations + 1 := by
  simp [planned_sends, loop_sends_length]

/-- The planned submission at an index below the iteration count, in terms of
the loop variables. -/
theorem planned_sends_get (M : FloatOps α β) (c : Config α) (j : Nat)
    (hj : j < c.iterations) :
    (planned_sends M c)[j]? =
      some ⟨(next_vars M (phase_inc M c) c.buffer_size
          (loop_vars M (phase_inc M c) c.buffer_size j (initial_vars c))).buffer,
        c.buffer_size, ⟨decide (j = 0), false⟩⟩ := by
  rw [planned_sends, List.getElem?_append_left (by simpa [loop_sends_length] using hj),
    loop_sends_get _ _ _ _ _ _ hj]
  simp [next_vars_length, loop_vars_length, loop_vars_md, initial_vars]

/-- A tone-bearing submission: `buffer_size` samples, `start_of_burst` only on
the first, `end_of_burst` clear. -/
theorem planned_sends_tone (M : FloatOps α β) (c : Config α) (j : Nat)
    (hj : j < c.iterations) :
    ∃ buf, (planned_sends M c)[j]? =
        some ⟨buf, c.buffer_size, ⟨decide (j = 0), false⟩⟩ ∧
      buf.length = c.buffer_size :=
  ⟨_, planned_sends_get M c j hj, by simp [next_vars_length, loop_vars_length, initial_vars]⟩

/-- The last submission: no samples, `end_of_burst` set. -/
theorem planned_sends_last (M : FloatOps α β) (c : Config α) :
    (planned_sends M c)[c.iterations]? =
      some ⟨[], 0, ⟨decide (c.iterations = 0), true⟩⟩ := by
  rw [planned_sends, List.getElem?_append_right (by simp [loop_sends_length])]
  simp [loop_sends_length, loop_vars_md, initial_vars]

/-- Every planned submission is either a tone-bearing one or the last one. -/
theorem planned_sends_cases (M : FloatOps α β) (c : Config α) (j : Nat)
    (s : Submission β) (hs : (planned_sends M c)[j]? = some s) :
    (j < c.iterations ∧ ∃ buf, s = ⟨buf, c.buffer_size, ⟨decide (j = 0), false⟩⟩ ∧
        buf.length = c.buffer_size) ∨
      (j = c.iterations ∧ s = ⟨[], 0, ⟨decide (c.iterations = 0), true⟩⟩) := by
  have hlt : j < c.iterations + 1 := by
    rw [← planned_sends_length M c]
    exact (List.getElem?_eq_some_iff.mp hs).1
  rcases Nat.lt_succ_iff_lt_or_eq.mp hlt with h | h
  · obtain ⟨buf, hb, hl⟩ := planned_sends_tone M c j h
    rw [hb] at hs
    exact Or.inl ⟨h, buf, (Option.some.inj hs).symm, hl⟩
  · subst h
    rw [planned_sends_last] at hs
    exact Or.inr ⟨rfl, (Option.some.inj hs).symm⟩

end Shape

/-! ## The model devices -/

section Models

variable {α β : Type}

theorem ideal_device_nonfailing [Zero α] : (ideal_device α β).NonFailing :=
  ⟨⟨_, rfl⟩, fun _ _ => ⟨_, rfl⟩, fun _ _ => ⟨_, rfl⟩, fun _ _ => ⟨_, rfl⟩,
    fun _ => ⟨_, rfl⟩, fun _ => ⟨_, rfl⟩, fun _ => ⟨_, rfl⟩, fun _ _ => ⟨_, rfl⟩,
    fun _ _ => ⟨_, rfl⟩⟩

theorem clamping_device_nonfailing [Zero α] [Min α] (cap : α) :
    (clamping_device α β cap).NonFailing :=
  ⟨⟨_, rfl⟩, fun _ _ => ⟨_, rfl⟩, fun _ _ => ⟨_, rfl⟩, fun _ _ => ⟨_, rfl⟩,
    fun _ => ⟨_, rfl⟩, fun _ => ⟨_, rfl⟩, fun _ => ⟨_, rfl⟩, fun _ _ => ⟨_, rfl⟩,
    fun _ _ => ⟨_, rfl⟩⟩

theorem short_device_nonfailing [Zero α] : (short_device α β).NonFailing :=
  ⟨⟨_, rfl⟩, fun _ _ => ⟨_, rfl⟩, fun _ _ => ⟨_, rfl⟩, fun _ _ => ⟨_, rfl⟩,
    fun _ => ⟨_, rfl⟩, fun _ => ⟨_, rfl⟩, fun _ => ⟨_, rfl⟩, fun _ _ => ⟨_, rfl⟩,
    fun _ _ => ⟨_, rfl⟩⟩

end Models

/-! ## Burst flags and submission counts -/

section Bursts

variable {σ α β : Type} [Zero α] [OfNat α 2] [Add α] [Mul α] [Div α] [Zero β]

theorem main_result_ok (d : Device σ α β) (M : FloatOps α β) (c : Config α)
    (h : d.NonFailing) : (main d M c).result = Except.ok 0 := by
  obtain ⟨rate, freq, gain, hm⟩ := main_ok d M c h
  rw [hm]

/-- C1: on every non-failing device and for every iteration count, the first
submission of `main` carries `start_of_burst = true` and every later one
carries `start_of_burst = false`; so exactly one submission carries it. -/
theorem C1_start_of_burst_only_first (d : Device σ α β) (M : FloatOps α β)
    (c : Config α) (h : d.NonFailing) :
    (∃ s, (submissions (main d M c).trace)[0]? = some s ∧ s.md.start_of_burst = true) ∧
    (∀ (j : Nat) (s : Submission β), 0 < j →
      (submissions (main d M c).trace)[j]? = some s →
      s.md.start_of_burst = false) ∧
    (∃! j : Nat, ∃ s : Submission β, (submissions (main d M c).trace)[j]? = some s ∧
      s.md.start_of_burst = true) := by
  rw [submissions_main d M c h]
  have first : ∃ s, (planned_sends M c)[0]? = some s ∧ s.md.start_of_burst = true := by
    rcases Nat.eq_zero_or_pos c.iterations with h0 | h0
    · have hl := planned_sends_last M c
      rw [h0] at hl
      exact ⟨_, hl, rfl⟩
    · exact ⟨_, planned_sends_get M c 0 h0, rfl⟩
  have later : ∀ (j : Nat) (s : Submission β), 0 < j → (planned_sends M c)[j]? = some s →
      s.md.start_of_burst = false := by
    intro j s hj hs
    rcases planned_sends_cases M c j s hs with ⟨-, buf, rfl, -⟩ | ⟨hN, rfl⟩
    · simp [Nat.pos_iff_ne_zero.mp hj]
    · simp [← hN, Nat.pos_iff_ne_zero.mp hj]
  refine ⟨first, later, 0, first, ?_⟩
  rintro j ⟨s, hs, hsob⟩
  by_contra hj
  have := later j s (Nat.pos_of_ne_zero hj) hs
  rw [hsob] at this
  exact Bool.noConfusion this

/-- C2: on every non-failing device and for every iteration count, the
submission at index `iterations` is the last one, has no samples and carries
`end_of_burst = true`; every tone-bearing submission carries
`end_of_burst = false`; so exactly one submission carries it and no send
follows it. -/
theorem C2_end_of_burst_only_last (d : Device σ α β) (M : FloatOps α β)
    (c : Config α) (h : d.NonFailing) :
    (submissions (main d M c).trace).length = c.iterations + 1 ∧
    (submissions (main d M c).trace)[c.iterations]? =
      some ⟨[], 0, ⟨decide (c.iterations = 0), true⟩⟩ ∧
    (submissions (main d M c).trace).getLast? =
      some ⟨[], 0, ⟨decide (c.iterations = 0), true⟩⟩ ∧
    (∀ (j : Nat) (s : Submission β), j < c.iterations →
      (submissions (main d M c).trace)[j]? = some s →
      s.md.end_of_burst = false) ∧
    (∃! j : Nat, ∃ s : Submission β, (submissions (main d M c).trace)[j]? = some s ∧
      s.md.end_of_burst = true) := by
  rw [submissions_main d M c h]
  have tone : ∀ (j : Nat) (s : Submission β), j < c.iterations →
      (planned_sends M c)[j]? = some s →
      s.md.end_of_burst = false := by
    intro j s hj hs
    rw [planned_sends_get M c j hj] at hs
    rw [← Option.some.inj hs]
  refine ⟨planned_sends_length M c, planned_sends_last M c, ?_, tone,
    c.iterations, ⟨_, planned_sends_last M c, rfl⟩, ?_⟩
  · simp [planned_sends, loop_vars_md, initial_vars]
  · rintro j ⟨s, hs, heob⟩
    rcases planned_sends_cases M c j s hs with ⟨hj, -⟩ | ⟨hN, -⟩
    · have := tone j s hj hs
      rw [heob] at this
      exact Bool.noConfusion this
    · exact hN

/-- C3: on a non-failing device `main` issues `iterations + 1` submissions:
`iterations` of them with `buffer_size` samples each, then one with none; with
no iteration, the only submission is the zero-length end-of-burst one. -/
theorem C3_submission_count (d : Device σ α β) (M : FloatOps α β)
    (c : Config α) (h : d.NonFailing) :
    (submissions (main d M c).trace).length = c.iterations + 1 ∧
    (∀ j, j < c.iterations → ∃ s, (submissions (main d M c).trace)[j]? = some s ∧
      s.nsamps_per_buff = c.buffer_size ∧ s.buff.length = c.buffer_size) ∧
    (∃ s, (submissions (main d M c).trace)[c.iterations]? = some s ∧
      s.nsamps_per_buff = 0 ∧ s.buff = [] ∧ s.md.end_of_burst = true) ∧
    (c.iterations = 0 → submissions (main d M c).trace = [⟨[], 0, ⟨true, true⟩⟩]) := by
  rw [submissions_main d M c h]
  refine ⟨planned_sends_length M c, ?_, ⟨_, planned_sends_last M c, rfl, rfl, rfl⟩, ?_⟩
  · intro j hj
    obtain ⟨buf, hb, hl⟩ := planned_sends_tone M c j hj
    exact ⟨_, hb, rfl, hl⟩
  · intro h0
    simp [planned_sends, h0, loop_sends, loop_vars, initial_vars]

/-- C8: when `multi_usrp::make` throws, the only call `main` has issued is
`make` itself (no setter, no getter, no stream, no send), and the run ends
with that exception, not with `return 0`. -/
theorem C8_make_failure_stops_everything (d : Device σ α β) (M : FloatOps α β)
    (c : Config α) (e : String) (h : d.make = Except.error e) :
    (main d M c).trace = [Event.make] ∧
    submissions (main d M c).trace = [] ∧
    (main d M c).result = Except.error e ∧
    (main d M c).result ≠ Except.ok 0 := by
  rw [main_make_error d M c e h]
  simp [submissions]

/-- C9: when `make`, the three setters and the three getters return, the run
of `main` begins with `make`, the three setters, then each getter followed by
the line reporting the value that getter returned on the device state left by
the setters, then the opening of the stream; whatever follows is a `send` or
the closing line. -/
theorem C9_reports_read_back_values (d : Device σ α β) (M : FloatOps α β)
    (c : Config α) (s0 : σ) (r1 r2 r3 : Unit × σ) (g1 g2 g3 : α × σ)
    (h0 : d.make = Except.ok s0)
    (h1 : d.set_tx_rate c.tx_rate s0 = Except.ok r1)
    (h2 : d.set_tx_freq c.tx_freq r1.2 = Except.ok r2)
    (h3 : d.set_tx_gain c.tx_gain r2.2 = Except.ok r3)
    (h4 : d.get_tx_rate r3.2 = Except.ok g1)
    (h5 : d.get_tx_freq g1.2 = Except.ok g2)
    (h6 : d.get_tx_gain g2.2 = Except.ok g3) :
    ∃ rest, (main d M c).trace =
        [Event.make, Event.set_tx_rate c.tx_rate, Event.set_tx_freq c.tx_freq,
         Event.set_tx_gain c.tx_gain,
         Event.get_tx_rate, Event.cout_value "TX Rate: " g1.1,
         Event.get_tx_freq, Event.cout_value "TX Freq: " g2.1,
         Event.get_tx_gain, Event.cout_value "TX Gain: " g3.1,
         Event.get_tx_stream "fc32"] ++ rest ∧
      ∀ ev ∈ rest, (∃ sub, ev = Event.send sub) ∨
        ev = Event.cout_line "Transmission done" := by
  obtain ⟨rest, ht, hrest⟩ := main_after_config d M c s0 r1 r2 r3 g1 g2 g3 h0 h1 h2 h3 h4 h5 h6
  exact ⟨rest, by simpa [config_events] using ht, hrest⟩

/-- C10: two runs of `main` that both complete, on any two devices (so
whatever counts their `send` calls returned), issue the same submissions, and
as many as the iteration count plus one: nothing is submitted again. -/
theorem C10_submissions_ignore_send_result {σ₁ σ₂ : Type} (d₁ : Device σ₁ α β)
    (d₂ : Device σ₂ α β) (M : FloatOps α β) (c : Config α) (v₁ v₂ : Int)
    (h₁ : (main d₁ M c).result = Except.ok v₁)
    (h₂ : (main d₂ M c).result = Except.ok v₂) :
    submissions (main d₁ M c).trace = submissions (main d₂ M c).trace ∧
    (submissions (main d₁ M c).trace).length = c.iterations + 1 := by
  rw [((submissions_any d₁ M c).2 v₁ h₁).2, ((submissions_any d₂ M c).2 v₂ h₂).2]
  exact ⟨rfl, planned_sends_length M c⟩

end Bursts

/-! ## Exact arithmetic

From here on `double` is read as the real numbers. -/

section Exact

variable {β : Type}

theorem fill_buffer_phase (M : FloatOps ℝ β) (inc : ℝ) (n : Nat)
    (st : List (β × β) × ℝ) :
    (fill_buffer M inc n st).2 = st.2 + n * inc := by
  induction n with
  | zero => simp [fill_buffer]
  | succ n ih =>
      rw [fill_buffer_succ]
      simp only [fill_step, ih]
      push_cast
      ring

/-- After the inner loop has passed slot `i`, that slot holds the cosine and
sine of the phase advanced `i` times. -/
theorem fill_buffer_slot (M : FloatOps ℝ β) (inc : ℝ) (st : List (β × β) × ℝ)
    (i : Nat) (hi : i < st.1.length) :
    ∀ n, i < n → (fill_buffer M inc n st).1[i]? =
      some (M.narrow (M.cos (st.2 + i * inc)), M.narrow (M.sin (st.2 + i * inc)))
  | 0, h => absurd h (Nat.not_lt_zero _)
  | n + 1, h => by
      rw [fill_buffer_succ]
      simp only [fill_step]
      rcases Nat.lt_succ_iff_lt_or_eq.mp h with hlt | heq
      · rw [List.getElem?_set_ne (Nat.ne_of_gt hlt)]
        exact fill_buffer_slot M inc st i hi n hlt
      · subst heq
        rw [List.getElem?_set_self, fill_buffer_phase]
        simp [fill_buffer_length, hi]

theorem loop_vars_phase (M : FloatOps ℝ β) (inc : ℝ) (B k : Nat) (v : LoopVars ℝ β) :
    (loop_vars M inc B k v).phase = v.phase + (k * B : Nat) * inc := by
  induction k with
  | zero => simp [loop_vars]
  | succ k ih =>
      rw [loop_vars_succ]
      simp only [next_vars, fill_buffer_phase, ih]
      push_cast
      ring

variable [Zero β]

/-- In exact arithmetic the phase used for slot `i` of buffer `k` is the
global sample index times the increment. -/
theorem slot_phase_eq (M : FloatOps ℝ β) (c : Config ℝ) (k i : Nat) :
    slot_phase M c k i = ((k * c.buffer_size + i : Nat) : ℝ) * phase_inc M c := by
  simp only [slot_phase, fill_buffer_phase, loop_vars_phase, initial_vars]
  push_cast
  ring

/-- Slot `i` of the `k`-th planned buffer. -/
theorem planned_sends_slot (M : FloatOps ℝ β) (c : Config ℝ) (k i : Nat)
    (hk : k < c.iterations) (hi : i < c.buffer_size) :
    ∃ s, (planned_sends M c)[k]? = some s ∧
      s.buff[i]? =
        some (M.narrow (M.cos (((k * c.buffer_size + i : Nat) : ℝ) * phase_inc M c)),
              M.narrow (M.sin (((k * c.buffer_size + i : Nat) : ℝ) * phase_inc M c))) := by
  refine ⟨_, planned_sends_get M c k hk, ?_⟩
  simp only [next_vars]
  rw [fill_buffer_slot M _ _ i (by simpa [loop_vars_length, initial_vars] using hi) _ hi,
    loop_vars_phase]
  simp only [initial_vars]
  push_cast
  ring_nf

/-- What stands at an index of a prefix stands at that index of the list. -/
theorem prefix_getElem? {γ : Type} {l₁ l₂ : List γ} (h : l₁ <+: l₂) (k : Nat) (x : γ)
    (hk : l₁[k]? = some x) : l₂[k]? = some x := by
  obtain ⟨t, rfl⟩ := h
  rw [List.getElem?_append_left (List.getElem?_eq_some_iff.mp hk).1]
  exact hk

/-- Every sample of every planned submission is the cosine and sine of one
phase. -/
theorem planned_sends_sample (M : FloatOps ℝ β) (c : Config ℝ) (s : Submission β)
    (hs : s ∈ planned_sends M c) (x : β × β) (hx : x ∈ s.buff) :
    ∃ p : ℝ, x = (M.narrow (M.cos p), M.narrow (M.sin p)) := by
  obtain ⟨j, hj⟩ := List.mem_iff_getElem?.mp hs
  rcases planned_sends_cases M c j s hj with ⟨hlt, buf, rfl, hlen⟩ | ⟨-, rfl⟩
  · obtain ⟨i, hi⟩ := List.mem_iff_getElem?.mp hx
    have hiB : i < c.buffer_size := by
      rw [← hlen]
      exact (List.getElem?_eq_some_iff.mp hi).1
    obtain ⟨s', hs', hslot⟩ := planned_sends_slot M c j i hlt hiB
    rw [hj] at hs'
    rw [← Option.some.inj hs'] at hslot
    rw [hi] at hslot
    exact ⟨_, Option.some.inj hslot⟩
  · simp at hx

end Exact

/-! ## Tone synthesis in exact arithmetic -/

section Tone

variable {σ : Type}

/-- C4: in real arithmetic, for a positive sample rate, slot `i` of the
`k`-th buffer that `main` submits holds the cosine and sine of
`(k * buffer_size + i) * D`, where `D = 2 * pi * tone_freq / tx_rate`: on any
device for every buffer that is submitted, and on a non-failing device the
`k`-th buffer is submitted. -/
theorem C4_sample_values (d : Device σ ℝ ℝ) (c : Config ℝ) (_hR : 0 < c.tx_rate)
    (k i : Nat) (hk : k < c.iterations) (hi : i < c.buffer_size) :
    (∀ s, (submissions (main d (exact_ops Real.pi Real.cos Real.sin) c).trace)[k]? = some s →
      s.buff[i]? =
        some (Real.cos (((k * c.buffer_size + i : Nat) : ℝ) *
                (2 * Real.pi * c.tone_freq / c.tx_rate)),
              Real.sin (((k * c.buffer_size + i : Nat) : ℝ) *
                (2 * Real.pi * c.tone_freq / c.tx_rate)))) ∧
    (d.NonFailing →
      ∃ s, (submissions (main d (exact_ops Real.pi Real.cos Real.sin) c).trace)[k]? =
        some s) := by
  obtain ⟨s', hs', hslot⟩ :=
    planned_sends_slot (exact_ops Real.pi Real.cos Real.sin) c k i hk hi
  constructor
  · intro s hs
    have h2 := prefix_getElem? (submissions_any d _ c).1 k s hs
    rw [hs'] at h2
    rw [← Option.some.inj h2]
    exact hslot
  · intro hnf
    rw [submissions_main d _ c hnf]
    exact ⟨s', hs'⟩

/-- C6: in real arithmetic, with `0 ≤ tone_freq < tx_rate / 2`, every sample
of every submission that `main` issues, on any device, has squared magnitude
exactly 1 and both components in `[-1, 1]`; and on a non-failing device the
sample of every index below `iterations * buffer_size` is submitted. -/
theorem C6_unit_magnitude (d : Device σ ℝ ℝ) (c : Config ℝ)
    (_hF : 0 ≤ c.tone_freq) (_hNyquist : c.tone_freq < c.tx_rate / 2) :
    (∀ s ∈ submissions (main d (exact_ops Real.pi Real.cos Real.sin) c).trace,
      ∀ x ∈ s.buff, x.1 ^ 2 + x.2 ^ 2 = 1 ∧ -1 ≤ x.1 ∧ x.1 ≤ 1 ∧ -1 ≤ x.2 ∧ x.2 ≤ 1) ∧
    (d.NonFailing → ∀ n, n < c.iterations * c.buffer_size →
      ∃ s x, (submissions (main d (exact_ops Real.pi Real.cos Real.sin) c).trace)[
          n / c.buffer_size]? = some s ∧
        s.buff[n % c.buffer_size]? = some x ∧ x.1 ^ 2 + x.2 ^ 2 = 1) := by
  constructor
  · intro s hs x hx
    obtain ⟨p, rfl⟩ := planned_sends_sample _ c s ((submissions_any d _ c).1.subset hs) x hx
    simp only [exact_ops, id]
    exact ⟨Real.cos_sq_add_sin_sq p, Real.neg_one_le_cos p, Real.cos_le_one p,
      Real.neg_one_le_sin p, Real.sin_le_one p⟩
  · intro hnf n hn
    have hB : 0 < c.buffer_size := by
      rcases Nat.eq_zero_or_pos c.buffer_size with h0 | h0
      · rw [h0] at hn; simp at hn
      · exact h0
    have hk : n / c.buffer_size < c.iterations :=
      (Nat.div_lt_iff_lt_mul hB).mpr hn
    obtain ⟨s, hs, hslot⟩ := planned_sends_slot (exact_ops Real.pi Real.cos Real.sin) c
      (n / c.buffer_size) (n % c.buffer_size) hk (Nat.mod_lt _ hB)
    rw [submissions_main d _ c hnf]
    refine ⟨s, _, hs, hslot, ?_⟩
    simp only [exact_ops, id]
    exact Real.cos_sq_add_sin_sq _

/-- C5: in real arithmetic, on a non-failing device and with a non-empty
buffer: the sample submitted in slot `i` of buffer `k` is the cosine and sine
of `slot_phase k i`; the phase starts at 0, advances by one increment from
each slot to the next and from the last slot of a buffer to slot 0 of the
next buffer; after `k` complete iterations the loop holds the accumulator
`k * buffer_size * D`; and with `D ≥ 0` the phase never decreases along the
run. -/
theorem C5_phase_continuity (d : Device σ ℝ ℝ) (M : FloatOps ℝ ℝ) (c : Config ℝ)
    (h : d.NonFailing) (hB : 0 < c.buffer_size) (k : Nat) :
    (∀ i, k < c.iterations → i < c.buffer_size →
      ∃ s, (submissions (main d M c).trace)[k]? = some s ∧
        s.buff[i]? = some (M.narrow (M.cos (slot_phase M c k i)),
                           M.narrow (M.sin (slot_phase M c k i)))) ∧
    slot_phase M c 0 0 = 0 ∧
    (∀ i, slot_phase M c k (i + 1) = slot_phase M c k i + phase_inc M c) ∧
    slot_phase M c (k + 1) 0 = slot_phase M c k (c.buffer_size - 1) + phase_inc M c ∧
    (∀ w : World σ ℝ ℝ, ∃ v w',
      tx_loop d M (phase_inc M c) c.buffer_size k (initial_vars c) w = (Except.ok v, w') ∧
      v.phase = ((k * c.buffer_size : Nat) : ℝ) * phase_inc M c) ∧
    (0 ≤ phase_inc M c → ∀ k₁ i₁ k₂ i₂ : Nat,
      k₁ * c.buffer_size + i₁ ≤ k₂ * c.buffer_size + i₂ →
        slot_phase M c k₁ i₁ ≤ slot_phase M c k₂ i₂) := by
  refine ⟨?_, ?_, ?_, ?_, ?_, ?_⟩
  · intro i hk hi
    rw [submissions_main d M c h, slot_phase_eq]
    exact planned_sends_slot M c k i hk hi
  · simp [slot_phase_eq]
  · intro i
    simp only [slot_phase_eq]
    push_cast
    ring
  · simp only [slot_phase_eq]
    have e : ((c.buffer_size - 1 : Nat) : ℝ) = (c.buffer_size : ℝ) - 1 := by
      rw [Nat.cast_sub hB]; simp
    push_cast
    rw [e]
    ring
  · intro w
    obtain ⟨s, hs⟩ := tx_loop_ok d M (phase_inc M c) c.buffer_size h.send k (initial_vars c) w
    refine ⟨_, _, hs, ?_⟩
    rw [loop_vars_phase]
    simp [initial_vars]
  · intro hD k₁ i₁ k₂ i₂ hle
    simp only [slot_phase_eq]
    exact mul_le_mul_of_nonneg_right (Nat.cast_le.mpr hle) hD

/-- C7 (amended): on every non-failing device, whatever rate it reads back,
`main` requests the rate `tx_rate`, and the phase of the tone advances by
`2 * pi * tone_freq / tx_rate` per sample, with that requested rate: slot `i`
of buffer `k` holds the cosine and sine of `(k * buffer_size + i)` times that
increment. -/
theorem C7_phase_inc_from_requested_rate (d : Device σ ℝ ℝ) (c : Config ℝ)
    (h : d.NonFailing) :
    Event.set_tx_rate c.tx_rate ∈
      (main d (exact_ops Real.pi Real.cos Real.sin) c).trace ∧
    (∀ k i, slot_phase (exact_ops Real.pi Real.cos Real.sin) c k (i + 1) =
      slot_phase (exact_ops Real.pi Real.cos Real.sin) c k i +
        2 * Real.pi * c.tone_freq / c.tx_rate) ∧
    (∀ k i, k < c.iterations → i < c.buffer_size →
      ∃ s, (submissions (main d (exact_ops Real.pi Real.cos Real.sin) c).trace)[k]? =
          some s ∧
        s.buff[i]? =
          some (Real.cos (((k * c.buffer_size + i : Nat) : ℝ) *
                  (2 * Real.pi * c.tone_freq / c.tx_rate)),
                Real.sin (((k * c.buffer_size + i : Nat) : ℝ) *
                  (2 * Real.pi * c.tone_freq / c.tx_rate)))) := by
  refine ⟨?_, ?_, ?_⟩
  · obtain ⟨rate, freq, gain, hm⟩ := main_ok d (exact_ops Real.pi Real.cos Real.sin) c h
    rw [hm]
    simp [config_events]
  · intro k i
    simp only [slot_phase_eq]
    simp only [phase_inc, exact_ops]
    push_cast
    ring
  · intro k i hk hi
    rw [submissions_main d _ c h]
    exact planned_sends_slot (exact_ops Real.pi Real.cos Real.sin) c k i hk hi

end Tone

/-! ## The theorems at concrete inputs -/

section Concrete

/-- The reference program on the ideal radio: the start-of-burst flag. -/
theorem C1_witness_reference_run :
    (ideal_device ℝ ℝ).NonFailing ∧
    (∃ s, (submissions (main (ideal_device ℝ ℝ) (exact_ops Real.pi Real.cos Real.sin)
        (reference_config ℝ)).trace)[0]? = some s ∧ s.md.start_of_burst = true) ∧
    (∀ (j : Nat) (s : Submission ℝ), 0 < j →
      (submissions (main (ideal_device ℝ ℝ) (exact_ops Real.pi Real.cos Real.sin)
        (reference_config ℝ)).trace)[j]? = some s → s.md.start_of_burst = false) ∧
    (∃! j : Nat, ∃ s : Submission ℝ,
      (submissions (main (ideal_device ℝ ℝ) (exact_ops Real.pi Real.cos Real.sin)
        (reference_config ℝ)).trace)[j]? = some s ∧ s.md.start_of_burst = true) :=
  ⟨ideal_device_nonfailing,
    C1_start_of_burst_only_first (ideal_device ℝ ℝ) (exact_ops Real.pi Real.cos Real.sin)
      (reference_config ℝ) ideal_device_nonfailing⟩

/-- The reference program on the ideal radio: 2001 submissions, the last one
zero-length with the end-of-burst flag. -/
theorem C2_witness_reference_run :
    (ideal_device ℝ ℝ).NonFailing ∧
    (submissions (main (ideal_device ℝ ℝ) (exact_ops Real.pi Real.cos Real.sin)
      (reference_config ℝ)).trace).length = 2001 ∧
    (submissions (main (ideal_device ℝ ℝ) (exact_ops Real.pi Real.cos Real.sin)
      (reference_config ℝ)).trace)[2000]? = some ⟨[], 0, ⟨false, true⟩⟩ ∧
    (submissions (main (ideal_device ℝ ℝ) (exact_ops Real.pi Real.cos Real.sin)
      (reference_config ℝ)).trace).getLast? = some ⟨[], 0, ⟨false, true⟩⟩ := by
  have h := C2_end_of_burst_only_last (ideal_device ℝ ℝ)
    (exact_ops Real.pi Real.cos Real.sin) (reference_config ℝ) ideal_device_nonfailing
  exact ⟨ideal_device_nonfailing, h.1, h.2.1, h.2.2.1⟩

/-- The reference program on the ideal radio: 2000 submissions of 1024
samples, then one of none. -/
theorem C3_witness_reference_run :
    (ideal_device ℝ ℝ).NonFailing ∧
    (submissions (main (ideal_device ℝ ℝ) (exact_ops Real.pi Real.cos Real.sin)
      (reference_config ℝ)).trace).length = 2001 ∧
    (∀ j, j < 2000 → ∃ s,
      (submissions (main (ideal_device ℝ ℝ) (exact_ops Real.pi Real.cos Real.sin)
        (reference_config ℝ)).trace)[j]? = some s ∧
      s.nsamps_per_buff = 1024 ∧ s.buff.length = 1024) ∧
    (∃ s, (submissions (main (ideal_device ℝ ℝ) (exact_ops Real.pi Real.cos Real.sin)
        (reference_config ℝ)).trace)[2000]? = some s ∧
      s.nsamps_per_buff = 0 ∧ s.buff = [] ∧ s.md.end_of_burst = true) := by
  have h := C3_submission_count (ideal_device ℝ ℝ)
    (exact_ops Real.pi Real.cos Real.sin) (reference_config ℝ) ideal_device_nonfailing
  exact ⟨ideal_device_nonfailing, h.1, h.2.1, h.2.2.1⟩

/-- With no radio attached, `main` stops at `make`. -/
theorem C8_witness_no_device :
    (absent_device ℝ ℝ).make = Except.error "LookupError: KeyError: No devices found" ∧
    (main (absent_device ℝ ℝ) (exact_ops Real.pi Real.cos Real.sin)
      (reference_config ℝ)).trace = [Event.make] ∧
    (main (absent_device ℝ ℝ) (exact_ops Real.pi Real.cos Real.sin)
      (reference_config ℝ)).result ≠ Except.ok 0 := by
  have h := C8_make_failure_stops_everything (absent_device ℝ ℝ)
    (exact_ops Real.pi Real.cos Real.sin) (reference_config ℝ) _ rfl
  exact ⟨rfl, h.1, h.2.2.2⟩

/-- A radio reporting full transfers and one reporting half of every buffer
receive the same submissions. -/
theorem C10_witness_short_transfers :
    (main (ideal_device ℝ ℝ) (exact_ops Real.pi Real.cos Real.sin)
      (reference_config ℝ)).result = Except.ok 0 ∧
    (main (short_device ℝ ℝ) (exact_ops Real.pi Real.cos Real.sin)
      (reference_config ℝ)).result = Except.ok 0 ∧
    submissions (main (ideal_device ℝ ℝ) (exact_ops Real.pi Real.cos Real.sin)
      (reference_config ℝ)).trace =
    submissions (main (short_device ℝ ℝ) (exact_ops Real.pi Real.cos Real.sin)
      (reference_config ℝ)).trace ∧
    (submissions (main (ideal_device ℝ ℝ) (exact_ops Real.pi Real.cos Real.sin)
      (reference_config ℝ)).trace).length = 2001 :=
  ⟨main_result_ok _ _ _ ideal_device_nonfailing,
    main_result_ok _ _ _ short_device_nonfailing,
    C10_submissions_ignore_send_result (ideal_device ℝ ℝ) (short_device ℝ ℝ)
      (exact_ops Real.pi Real.cos Real.sin) (reference_config ℝ) 0 0
      (main_result_ok _ _ _ ideal_device_nonfailing)
      (main_result_ok _ _ _ short_device_nonfailing)⟩

/-- The worked scenario: sample rate 200000, tone 10000, 4 samples a buffer;
the whole first buffer. -/
theorem C4_witness_first_buffer :
    ∃ s, (submissions (main (ideal_device ℝ ℝ) (exact_ops Real.pi Real.cos Real.sin)
        (scenario_config ℝ)).trace)[0]? = some s ∧
      s.buff = [(1, 0),
        (Real.cos (0.1 * Real.pi), Real.sin (0.1 * Real.pi)),
        (Real.cos (0.2 * Real.pi), Real.sin (0.2 * Real.pi)),
        (Real.cos (0.3 * Real.pi), Real.sin (0.3 * Real.pi))] := by
  have hR : (0 : ℝ) < (scenario_config ℝ).tx_rate := by
    simp [scenario_config, reference_config]
  have hN : 0 < (scenario_config ℝ).iterations := by decide
  have slot : ∀ i, i < 4 → _ := fun i hi =>
    C4_sample_values (ideal_device ℝ ℝ) (scenario_config ℝ) hR 0 i hN hi
  obtain ⟨s, hs⟩ := (slot 0 (by decide)).2 ideal_device_nonfailing
  have h0 := (slot 0 (by decide)).1 s hs
  have h1 := (slot 1 (by decide)).1 s hs
  have h2 := (slot 2 (by decide)).1 s hs
  have h3 := (slot 3 (by decide)).1 s hs
  have hlen : s.buff.length = 4 := by
    obtain ⟨buf, hb, hl⟩ := planned_sends_tone (exact_ops Real.pi Real.cos Real.sin)
      (scenario_config ℝ) 0 hN
    rw [submissions_main _ _ _ ideal_device_nonfailing, hb] at hs
    rw [← Option.some.inj hs]
    exact hl
  have e1 : (2 : ℝ) * Real.pi * 10000 / 200000 = 0.1 * Real.pi := by ring
  have e2 : (2 : ℝ) * (0.1 * Real.pi) = 0.2 * Real.pi := by ring
  have e3 : (3 : ℝ) * (0.1 * Real.pi) = 0.3 * Real.pi := by ring
  simp only [scenario_config, reference_config, Nat.zero_mul, Nat.zero_add, Nat.cast_zero,
    Nat.cast_one, Nat.cast_ofNat, zero_mul, one_mul, Real.cos_zero, Real.sin_zero,
    e1, e2, e3] at h0 h1 h2 h3
  refine ⟨s, hs, ?_⟩
  apply List.ext_getElem?
  intro n
  rcases Nat.lt_or_ge n 4 with hn | hn
  · interval_cases n
    · simpa using h0
    · simpa using h1
    · simpa using h2
    · simpa using h3
  · rw [List.getElem?_eq_none (by omega), List.getElem?_eq_none (by simpa using hn)]

/-- The reference program: the phase at the start of the second buffer is one
increment after the phase of slot 1023 of the first. -/
theorem C5_witness_first_boundary :
    (ideal_device ℝ ℝ).NonFailing ∧ 0 < (reference_config ℝ).buffer_size ∧
    slot_phase (exact_ops Real.pi Real.cos Real.sin) (reference_config ℝ) 0 0 = 0 ∧
    slot_phase (exact_ops Real.pi Real.cos Real.sin) (reference_config ℝ) 1 0 =
      slot_phase (exact_ops Real.pi Real.cos Real.sin) (reference_config ℝ) 0 1023 +
        phase_inc (exact_ops Real.pi Real.cos Real.sin) (reference_config ℝ) := by
  have h := C5_phase_continuity (ideal_device ℝ ℝ) (exact_ops Real.pi Real.cos Real.sin)
    (reference_config ℝ) ideal_device_nonfailing (by decide) 0
  exact ⟨ideal_device_nonfailing, by decide, h.2.1, h.2.2.2.1⟩

/-- The reference tone, 10 kHz at 200 kS/s, is below the Nyquist limit and
every sample has unit magnitude. -/
theorem C6_witness_reference_tone :
    (0 : ℝ) ≤ (reference_config ℝ).tone_freq ∧
    (reference_config ℝ).tone_freq < (reference_config ℝ).tx_rate / 2 ∧
    ∀ s ∈ submissions (main (ideal_device ℝ ℝ) (exact_ops Real.pi Real.cos Real.sin)
        (reference_config ℝ)).trace,
      ∀ x ∈ s.buff, x.1 ^ 2 + x.2 ^ 2 = 1 ∧ -1 ≤ x.1 ∧ x.1 ≤ 1 ∧ -1 ≤ x.2 ∧ x.2 ≤ 1 := by
  have hF : (0 : ℝ) ≤ (reference_config ℝ).tone_freq := by
    simp [reference_config]
  have hN : (reference_config ℝ).tone_freq < (reference_config ℝ).tx_rate / 2 := by
    simp only [reference_config, Nat.cast_ofNat]
    norm_num
  exact ⟨hF, hN, (C6_unit_magnitude (ideal_device ℝ ℝ) (reference_config ℝ) hF hN).1⟩

/-- The run of `main` on the radio that clamps the rate to 100 kS/s. -/
theorem clamped_run :
    main (clamping_device ℝ ℝ 100000) (exact_ops Real.pi Real.cos Real.sin)
        (reference_config ℝ) =
      ⟨Event.make :: (config_events (reference_config ℝ) 100000 100000000 40 ++
        ((planned_sends (exact_ops Real.pi Real.cos Real.sin) (reference_config ℝ)).map
          Event.send ++ [Event.cout_line "Transmission done"])),
       Except.ok 0⟩ := by
  have hmin : min (200000 : ℝ) 100000 = 100000 := min_eq_right (by norm_num)
  have h := main_run (clamping_device ℝ ℝ 100000) (exact_ops Real.pi Real.cos Real.sin)
    (reference_config ℝ) _ _ _ _ _ _ _ _ rfl rfl rfl rfl rfl rfl rfl rfl
    (clamping_device_nonfailing (100000 : ℝ)).send
  simpa [reference_config, hmin] using h

/-- C7 (counterexample): on the radio that clamps the rate to 100 kS/s, `main`
requests 200 kS/s and reads back and reports 100 kS/s, yet the phase increment
is `2 * pi * 10000 / 200000`, not `2 * pi * 10000 / 100000`, and slot 1 of the
first submitted buffer is not the sample one increment of the read-back rate
would give. -/
theorem C7_counterexample_clamped_rate :
    Event.cout_value "TX Rate: " (100000 : ℝ) ∈
      (main (clamping_device ℝ ℝ 100000) (exact_ops Real.pi Real.cos Real.sin)
        (reference_config ℝ)).trace ∧
    phase_inc (exact_ops Real.pi Real.cos Real.sin) (reference_config ℝ) ≠
      2 * Real.pi * 10000 / 100000 ∧
    ∃ s x, (submissions (main (clamping_device ℝ ℝ 100000)
        (exact_ops Real.pi Real.cos Real.sin) (reference_config ℝ)).trace)[0]? = some s ∧
      s.buff[1]? = some x ∧
      x ≠ (Real.cos (1 * (2 * Real.pi * 10000 / 100000)),
           Real.sin (1 * (2 * Real.pi * 10000 / 100000))) := by
  have hpi := Real.pi_pos
  have hinc : phase_inc (exact_ops Real.pi Real.cos Real.sin) (reference_config ℝ) =
      Real.pi / 10 := by
    simp only [phase_inc, exact_ops, reference_config, Nat.cast_ofNat]
    ring
  refine ⟨?_, ?_, ?_⟩
  · rw [clamped_run]
    simp [config_events]
  · rw [hinc]
    intro heq
    nlinarith
  · obtain ⟨s, hs, hslot⟩ := planned_sends_slot (exact_ops Real.pi Real.cos Real.sin)
      (reference_config ℝ) 0 1 (by decide) (by decide)
    refine ⟨s, _, ?_, hslot, ?_⟩
    · rw [submissions_main _ _ _ (clamping_device_nonfailing (100000 : ℝ))]
      exact hs
    · rw [hinc]
      simp only [exact_ops, id, Nat.zero_mul, Nat.zero_add, Nat.cast_one, one_mul]
      intro heq
      have hcos : Real.cos (Real.pi / 10) = Real.cos (2 * Real.pi * 10000 / 100000) :=
        congrArg Prod.fst heq
      have hlt : Real.cos (2 * Real.pi * 10000 / 100000) < Real.cos (Real.pi / 10) :=
        Real.cos_lt_cos_of_nonneg_of_le_pi (by positivity) (by nlinarith) (by nlinarith)
      rw [hcos] at hlt
      exact lt_irrefl _ hlt

/-- On the radio that clamps the rate to 100 kS/s the request is 200000 and
the phase advances by the increment of the requested rate. -/
theorem C7_witness_clamped_rate :
    (clamping_device ℝ ℝ 100000).NonFailing ∧
    Event.set_tx_rate ((200000 : Nat) : ℝ) ∈
      (main (clamping_device ℝ ℝ 100000) (exact_ops Real.pi Real.cos Real.sin)
        (reference_config ℝ)).trace ∧
    (∀ k i, slot_phase (exact_ops Real.pi Real.cos Real.sin) (reference_config ℝ)
        k (i + 1) =
      slot_phase (exact_ops Real.pi Real.cos Real.sin) (reference_config ℝ) k i +
        2 * Real.pi * (reference_config ℝ).tone_freq / (reference_config ℝ).tx_rate) := by
  have h := C7_phase_inc_from_requested_rate (clamping_device ℝ ℝ 100000)
    (reference_config ℝ) (clamping_device_nonfailing (100000 : ℝ))
  exact ⟨clamping_device_nonfailing (100000 : ℝ), h.1, h.2.1⟩

/-- On the radio that clamps the rate to 100 kS/s `main` reports the 100000 it
read back, not the 200000 it requested, before it opens the stream. -/
theorem C9_witness_clamped_rate :
    ∃ rest, (main (clamping_device ℝ ℝ 100000) (exact_ops Real.pi Real.cos Real.sin)
        (reference_config ℝ)).trace =
        [Event.make, Event.set_tx_rate 200000, Event.set_tx_freq 100000000,
         Event.set_tx_gain 40,
         Event.get_tx_rate, Event.cout_value "TX Rate: " 100000,
         Event.get_tx_freq, Event.cout_value "TX Freq: " 100000000,
         Event.get_tx_gain, Event.cout_value "TX Gain: " 40,
         Event.get_tx_stream "fc32"] ++ rest ∧
      ∀ ev ∈ rest, (∃ sub, ev = Event.send sub) ∨
        ev = Event.cout_line "Transmission done" := by
  have hmin : min (200000 : ℝ) 100000 = 100000 := min_eq_right (by norm_num)
  obtain ⟨rest, ht, hrest⟩ := C9_reports_read_back_values (clamping_device ℝ ℝ 100000)
    (exact_ops Real.pi Real.cos Real.sin) (reference_config ℝ) _ _ _ _ _ _ _
    rfl rfl rfl rfl rfl rfl rfl
  exact ⟨rest, by simpa [reference_config, hmin] using ht, hrest⟩

end Concrete

end SineTx
